import Mathlib

/-!
Verification of the iterative idea-submission engine (src/backend/service.py
and src/backend/api_run.py) against its specification.

Modelling conventions for the shallow embedding of the Python code:

* A Python dict holding the form fields maps field names to `Optional[str]`
  values.  We embed such a dict as a function `String → Option (Option String)`:
  `none` means the key is not in the dict, `some none` means the key is present
  with value `None`, and `some (some s)` means the key holds the string `s`.
* A fully-formed FieldSet (the shape the extractor always produces: every
  schema field present, possibly with value `None`) is `String → Option String`
  and is injected into the dict embedding by `toPy`.
* Python code that can raise an uncaught exception is embedded as a function
  returning `Option _`, with `none` standing for the raised exception.
-/

/-- One entry of `Config.FORM_SCHEMA` in service.py: the field name together
with its configuration dict (`description`, `required`, optional `min_length`,
`max_length` and `type`). -/
structure FieldConfig where
  name : String
  description : String
  required : Bool
  min_length : Option Nat
  max_length : Option Nat
  ftype : Option String
deriving DecidableEq

/-- An entry of `missing_fields` / `quality_issues` / `suggestions`: the
Python dict `{"field": ..., "message": ...}`. -/
structure Issue where
  field : String
  message : String
deriving DecidableEq

/-- The validation results dict built by `FormValidator.validate_fields`. -/
structure Verdict where
  missing_fields : List Issue
  quality_issues : List Issue
  suggestions : List Issue
deriving DecidableEq

/-- `Config.FORM_SCHEMA` from service.py, in its declared order. -/
def FORM_SCHEMA : List FieldConfig :=
  [ ⟨"idea_title", "A concise, attention-grabbing title for the idea",
      true, none, some 100, none⟩,
    ⟨"solution_details", "Detailed explanation of the proposed solution",
      true, some 50, none, none⟩,
    ⟨"benefits_and_impact", "The potential benefits and impact of implementing this idea",
      true, some 30, none, none⟩,
    ⟨"impact_measures", "How the impact will be measured (KPIs, metrics)",
      true, some 20, none, none⟩,
    ⟨"scalability", "How the solution can be scaled (geographically, demographically)",
      false, none, none, none⟩,
    ⟨"target_audience", "Primary and secondary audiences who will benefit",
      true, none, none, none⟩,
    ⟨"relevant_entities", "Other organizations/departments that would need to be involved",
      false, none, none, none⟩,
    ⟨"feasibility_and_implementation", "Practical considerations for implementation (timeline, resources)",
      true, some 40, none, none⟩,
    ⟨"attachments", "Any supporting documents or references",
      false, none, none, some "file"⟩ ]

/-- The declared field names of the schema, in order. -/
def schemaNames : List String := FORM_SCHEMA.map FieldConfig.name

/-- Embedding of a Python dict with `Optional[str]` values: `none` = key
absent, `some v` = key present holding `v` (where `v = none` is Python
`None`). -/
abbrev PyFields := String → Option (Option String)

/-- A fully-formed FieldSet: a value (possibly `None`) for every key. -/
abbrev FieldSet := String → Option String

/-- View a fully-formed FieldSet as a Python dict in which every key is
present. -/
def toPy (fs : FieldSet) : PyFields := fun k => some (fs k)

/-- Python `d.get(k)`: the stored value, or `None` when the key is absent. -/
def pyGet (d : PyFields) (k : String) : Option String :=
  match d k with
  | none => none
  | some v => v

/-- Python `d.get(k, dflt)` where the default is a string. -/
def pyGetD (d : PyFields) (k : String) (dflt : String) : Option String :=
  match d k with
  | none => some dflt
  | some v => v

/-- Python `str(x)` for `x : Optional[str]`: `str(None)` is the 4-character
string `"None"`, and `str` of a string is itself. -/
def pyStr (v : Option String) : String :=
  match v with
  | none => "None"
  | some s => s

/-- Python `len(x)` for `x : Optional[str]`: `len` of a string is its length,
`len(None)` raises `TypeError`, embedded as `none`. -/
def pyLen (v : Option String) : Option Nat :=
  match v with
  | none => none
  | some s => some s.length

/-- The merge loop of `IterativeIdeaSubmissionAssistant._update_fields`
(service.py lines 201-211): start from a copy of `current`, and for every
schema field present in the incoming extraction, overwrite it when the current
key is missing, or `current.get(field) is None`, or
`len(str(current.get(field, ""))) < 20`. -/
def mergeFields (current incoming : PyFields) : PyFields := fun k =>
  if k ∈ schemaNames ∧ (incoming k).isSome ∧
      (current k = none ∨ pyGet current k = none ∨ (pyStr (pyGetD current k "")).length < 20)
  then incoming k
  else current k

/-- A JSON value as produced by Python `json.loads`. -/
inductive JValue where
  | null : JValue
  | str : String → JValue
  | num : Int → JValue
  | boolean : Bool → JValue
  | arr : List JValue → JValue
  | obj : List (String × JValue) → JValue

/-- Python `raw_fields.get(field, None)` on a parsed JSON object: the value of
the last occurrence of the key (as `json.loads` keeps the last value for a
duplicated key), or `none` when the key does not occur. -/
def jlookup (kvs : List (String × JValue)) (k : String) : Option JValue :=
  kvs.foldl (fun acc p => if p.1 = k then some p.2 else acc) none

/-- `IdeaFormProcessor.forward` (service.py lines 92-105), given the outcome
of `json.loads` on the external extraction output: `none` stands for a
`json.JSONDecodeError`, which the code catches by returning every schema field
set to `None`; a parsed JSON object is normalised with
`{field: raw_fields.get(field, None) for field in Config.FORM_SCHEMA}`; any
other parsed JSON value makes `raw_fields.get` raise an uncaught
`AttributeError`, embedded as result `none`. -/
def forward (parsed : Option JValue) : Option (List (String × JValue)) :=
  match parsed with
  | none => some (FORM_SCHEMA.map fun cfg => (cfg.name, JValue.null))
  | some (JValue.obj kvs) =>
      some (FORM_SCHEMA.map fun cfg => (cfg.name, (jlookup kvs cfg.name).getD JValue.null))
  | some _ => none

/-- The all-absent extraction result: every schema field mapped to null. -/
def allAbsentExtraction : List (String × JValue) :=
  FORM_SCHEMA.map fun cfg => (cfg.name, JValue.null)

/-- The message text of a missing-field entry in
`FormValidator.validate_fields`. -/
def missingMsg (cfg : FieldConfig) : String :=
  "Missing required field: " ++ cfg.description

/-- One pass of the loop body of `FormValidator.validate_fields` (service.py
lines 133-146) over the accumulated `missing_fields` list: the first `if`
appends an entry when the field is required, its key is in the dict and its
value `== None`; the second appends an entry when the field is required and
its key is not in the dict. -/
def missingStep (extracted : PyFields) (acc : List Issue) (cfg : FieldConfig) : List Issue :=
  let acc1 :=
    if cfg.required ∧ (extracted cfg.name).isSome then
      if pyGet extracted cfg.name = none then acc ++ [⟨cfg.name, missingMsg cfg⟩] else acc
    else acc
  if cfg.required ∧ extracted cfg.name = none then acc1 ++ [⟨cfg.name, missingMsg cfg⟩]
  else acc1

/-- `FormValidator.validate_fields` (service.py lines 124-148): walks the
schema in declared order collecting missing-field entries; `quality_issues`
and `suggestions` stay empty. -/
def validateFields (extracted : PyFields) : Verdict :=
  ⟨FORM_SCHEMA.foldl (missingStep extracted) [], [], []⟩

/-- Python `s.replace(c, r)` for one-character `c` and `r`: every occurrence
of the character `c` is replaced by `r`. -/
def pyReplaceChar (s : String) (c r : Char) : String :=
  String.mk (s.data.map fun a => if a = c then r else a)

/-- The message of the progressive minimum-length quality issue:
`f"Please provide at least {min_length} characters for {field.replace('_', ' ')}"`. -/
def minLenMsg (cfg : FieldConfig) (m : Nat) : String :=
  "Please provide at least " ++ toString m ++ " characters for " ++
    pyReplaceChar cfg.name '_' ' '

/-- The quality issue appended by the progressive numeric check. -/
def digitIssue : Issue :=
  ⟨"impact_measures", "Please include specific numbers or metrics"⟩

/-- One pass of the minimum-length loop of
`ProgressiveFormValidator.validate_fields` (service.py lines 240-246): when
the field key is in the dict and the config declares `min_length`, the code
evaluates `len(extracted_fields[field])`, which raises `TypeError` (embedded
as `none`) when the stored value is `None`; a raised error aborts the rest of
the loop. -/
def minLenStep (extracted : PyFields) (acc : Option (List Issue)) (cfg : FieldConfig) :
    Option (List Issue) :=
  match acc with
  | none => none
  | some issues =>
    match extracted cfg.name, cfg.min_length with
    | some v, some m =>
        match pyLen v with
        | none => none
        | some l => if l < m then some (issues ++ [⟨cfg.name, minLenMsg cfg m⟩]) else some issues
    | some _, none => some issues
    | none, _ => some issues

/-- `ProgressiveFormValidator.validate_fields` (service.py lines 234-256):
starts from the base verdict; when `iteration > 0` it runs the minimum-length
loop, and when `iteration > 1` and `impact_measures` is a key of the dict it
iterates over the stored value looking for a digit (iterating over `None`
raises `TypeError`) and appends `digitIssue` when no digit occurs.  A raised
`TypeError` is embedded as result `none`. -/
def progressiveValidateFields (extracted : PyFields) (iteration : Nat) : Option Verdict :=
  let results := validateFields extracted
  let q1 : Option (List Issue) :=
    if 0 < iteration then FORM_SCHEMA.foldl (minLenStep extracted) (some results.quality_issues)
    else some results.quality_issues
  match q1 with
  | none => none
  | some issues1 =>
    if 1 < iteration then
      match extracted "impact_measures" with
      | none => some ⟨results.missing_fields, issues1, results.suggestions⟩
      | some none => none
      | some (some s) =>
          if s.data.any Char.isDigit then some ⟨results.missing_fields, issues1, results.suggestions⟩
          else some ⟨results.missing_fields, issues1 ++ [digitIssue], results.suggestions⟩
    else some ⟨results.missing_fields, issues1, results.suggestions⟩

/-- The round result built by
`IterativeIdeaSubmissionAssistant.run_interactive_loop`. -/
structure RoundResult where
  status : String
  form_data : PyFields
  validation : Verdict

/-- `IterativeIdeaSubmissionAssistant.run_interactive_loop` (service.py lines
213-230), given the fields extracted from the transcript by the form
processor: validates them and returns status `"complete"` when
`missing_fields` is falsy and `"incomplete"` otherwise.  (The locals
`max_iterations` and `prompt` are computed but not used in the returned
value.) -/
def runInteractiveLoop (extractedFields : PyFields) : RoundResult :=
  let validation := validateFields extractedFields
  ⟨if validation.missing_fields.isEmpty then "complete" else "incomplete",
   extractedFields, validation⟩

/-- The status computed by `provide_clarification` (api_run.py line 151):
`"complete"` when `missing_fields` is falsy, else `"needs_clarification"`. -/
def provideClarificationStatus (validation : Verdict) : String :=
  if validation.missing_fields.isEmpty then "complete" else "needs_clarification"

/-- The fully-formed FieldSet with every field absent, as the extractor
returns when parsing fails. -/
def allAbsentFields : FieldSet := fun _ => none

/-- Concrete current fields for the merge counterexample: a short (2
character) present title. -/
def shortCurrent : FieldSet := fun k => if k = "idea_title" then some "Hi" else none

/-- Concrete incoming fields supplying a replacement title. -/
def planIncoming : FieldSet := fun _ => some "A Better Commute Plan"

/-- Concrete current fields for the retention rule: a title of length at
least 20. -/
def longCurrent : FieldSet :=
  fun k => if k = "idea_title" then some "A fully fleshed out thirty-character title" else none

/-- Concrete incoming fields offering a different title. -/
def otherIncoming : FieldSet := fun _ => some "Something else"

/-- Concrete fields for the progressive-validator counterexamples: only
`solution_details` is absent. -/
def solutionAbsent : FieldSet := fun k => if k = "solution_details" then none else some "ok"

/-- Concrete fields whose `impact_measures` value has no digit while
`solution_details` is absent. -/
def impactNoDigit : FieldSet :=
  fun k => if k = "impact_measures" then some "It will help a lot" else none

/-- Concrete fully-present fields whose every value is the digit string
`"30"`. -/
def allThirty : FieldSet := fun _ => some "30"

/-- Concrete fully-present fields whose every value is a digit-free string. -/
def allHelps : FieldSet := fun _ => some "It helps"

/-! Helper lemmas about the embedded operations. -/

theorem missingStep_toPy (fs : FieldSet) (acc : List Issue) (cfg : FieldConfig) :
    missingStep (toPy fs) acc cfg =
      if cfg.required ∧ fs cfg.name = none then acc ++ [⟨cfg.name, missingMsg cfg⟩] else acc := by
  rcases hr : cfg.required with _ | _ <;> simp [missingStep, toPy, pyGet, hr]

theorem missing_foldl (fs : FieldSet) (cfgs : List FieldConfig) (acc : List Issue) :
    cfgs.foldl (missingStep (toPy fs)) acc =
      acc ++ (cfgs.filter fun cfg => cfg.required && (fs cfg.name).isNone).map
        (fun cfg => ⟨cfg.name, missingMsg cfg⟩) := by
  induction cfgs generalizing acc with
  | nil => simp
  | cons cfg rest ih =>
      rw [List.foldl_cons, missingStep_toPy, List.filter_cons]
      rcases hr : cfg.required with _ | _ <;> rcases hv : fs cfg.name with _ | s <;>
        simp [ih, hr, hv]

theorem minLenStep_none (extracted : PyFields) (cfg : FieldConfig) :
    minLenStep extracted none cfg = none := rfl

theorem minLenFold_none (extracted : PyFields) (cfgs : List FieldConfig) :
    cfgs.foldl (minLenStep extracted) none = none := by
  induction cfgs with
  | nil => rfl
  | cons cfg rest ih => rw [List.foldl_cons, minLenStep_none]; exact ih

/-- Every issue appended by the minimum-length loop over the concrete schema
differs from the numeric-metrics issue. -/
theorem minLen_entry_ne_digit (cfg : FieldConfig) (hcfg : cfg ∈ FORM_SCHEMA) (m : Nat)
    (hm : cfg.min_length = some m) :
    (⟨cfg.name, minLenMsg cfg m⟩ : Issue) ≠ digitIssue := by
  fin_cases hcfg <;> (simp_all [minLenMsg, digitIssue]; try (subst hm; decide))

/-- The minimum-length loop never inserts the numeric-metrics issue. -/
theorem minLenFold_digit_notMem (extracted : PyFields) (cfgs : List FieldConfig)
    (hcfgs : ∀ cfg ∈ cfgs, ∀ m, cfg.min_length = some m →
      (⟨cfg.name, minLenMsg cfg m⟩ : Issue) ≠ digitIssue)
    (acc out : List Issue) (h : cfgs.foldl (minLenStep extracted) (some acc) = some out)
    (hacc : digitIssue ∉ acc) : digitIssue ∉ out := by
  induction cfgs generalizing acc with
  | nil =>
      simp only [List.foldl_nil, Option.some.injEq] at h
      exact h ▸ hacc
  | cons cfg rest ih =>
      rw [List.foldl_cons] at h
      have hrest : ∀ c ∈ rest, ∀ m, c.min_length = some m →
          (⟨c.name, minLenMsg c m⟩ : Issue) ≠ digitIssue :=
        fun c hc => hcfgs c (List.mem_cons_of_mem _ hc)
      rcases hstep : minLenStep extracted (some acc) cfg with _ | acc1
      · rw [hstep, minLenFold_none] at h; exact absurd h (by simp)
      · rw [hstep] at h
        refine ih hrest acc1 h ?_
        simp only [minLenStep] at hstep
        rcases hv : extracted cfg.name with _ | v <;> rw [hv] at hstep
        · exact (Option.some.inj hstep) ▸ hacc
        · rcases hml : cfg.min_length with _ | m <;> rw [hml] at hstep
          · exact (Option.some.inj hstep) ▸ hacc
          · rcases v with _ | s
            · simp [pyLen] at hstep
            · simp only [pyLen] at hstep
              by_cases hl : s.length < m
              · rw [if_pos hl] at hstep
                rw [← Option.some.inj hstep]
                intro hmem
                rcases List.mem_append.mp hmem with h1 | h2
                · exact hacc h1
                · exact hcfgs cfg (List.mem_cons_self _ _) m hml (List.mem_singleton.mp h2).symm
              · rw [if_neg hl] at hstep
                exact (Option.some.inj hstep) ▸ hacc

theorem validateFields_quality (extracted : PyFields) :
    (validateFields extracted).quality_issues = [] := rfl

theorem validateFields_suggestions (extracted : PyFields) :
    (validateFields extracted).suggestions = [] := rfl

/-! Theorems settling the claims. -/

/-- Claim C1, counterexample.  The claim states that when `current[f]` is
present with length below 20 and the incoming value is absent, `current[f]`
is kept.  At `current = {"idea_title": "Hi"}` (present, length 2 < 20) and an
incoming extraction whose `idea_title` is `None`, the code instead overwrites
the field with `None`: the merged value is absent, not `"Hi"`. -/
theorem C1_counterexample :
    shortCurrent "idea_title" = some "Hi" ∧ ("Hi" : String).length < 20 ∧
    allAbsentFields "idea_title" = none ∧
    mergeFields (toPy shortCurrent) (toPy allAbsentFields) "idea_title" = some none ∧
    mergeFields (toPy shortCurrent) (toPy allAbsentFields) "idea_title" ≠ some (some "Hi") := by
  decide

/-- Claim C1, amended.  Per-field merge policy actually implemented: if
`current[f]` is absent the incoming value is adopted (absent or not); if
`current[f]` is present with length strictly below 20 the incoming value is
adopted unconditionally, even when it is absent; if `current[f]` is present
with length at least 20 it is kept unconditionally. -/
theorem C1_merge_policy_amended (current incoming : FieldSet) (k : String)
    (hk : k ∈ schemaNames) :
    mergeFields (toPy current) (toPy incoming) k =
      some (match current k with
        | none => incoming k
        | some s => if s.length < 20 then incoming k else some s) := by
  rcases hc : current k with _ | s
  · simp [mergeFields, toPy, pyGet, pyGetD, pyStr, hk, hc]
  · by_cases hl : s.length < 20 <;>
      simp [mergeFields, toPy, pyGet, pyGetD, pyStr, hk, hc, hl]

/-- Witness for C1_merge_policy_amended at a schema field with a short
present current value and a present incoming value. -/
theorem C1_merge_policy_amended_witness :
    mergeFields (toPy shortCurrent) (toPy planIncoming) "idea_title" =
      some (some "A Better Commute Plan") := by
  have h := C1_merge_policy_amended shortCurrent planIncoming "idea_title" (by decide)
  simpa [shortCurrent, planIncoming] using h

/-- Claim C2 (code bug).  The claim says a field with a declared `min_length`
whose value is absent yields no quality issue at `iteration >= 1` and the
call never fails on it.  The code evaluates `len(extracted_fields[field])`
without a `None` guard, so on the all-absent FieldSet (exactly what the
extractor returns on a parse failure) the call raises `TypeError` at
iteration 1, while the same call at iteration 0 returns a verdict. -/
theorem C2_progressive_min_length_raises :
    progressiveValidateFields (toPy allAbsentFields) 1 = none ∧
    (progressiveValidateFields (toPy allAbsentFields) 0).isSome = true := by decide

/-- Claim C3 (code bug).  `run_interactive_loop` derives the status of the
initial round as `"incomplete"`, not `"needs_clarification"`, when required
fields are missing, although api_run.py documents the response status set as
complete / needs_clarification / error and the clarification endpoint uses
`"needs_clarification"` for the very same verdict. -/
theorem C3_initial_status_incomplete :
    (runInteractiveLoop (toPy allAbsentFields)).status = "incomplete" ∧
    (validateFields (toPy allAbsentFields)).missing_fields ≠ [] ∧
    (runInteractiveLoop (toPy allAbsentFields)).status ≠ "needs_clarification" ∧
    provideClarificationStatus (validateFields (toPy allAbsentFields)) =
      "needs_clarification" := by decide

/-- Claim C5, confirmed.  The base validator returns exactly one
missing-field entry (carrying the schema description) per required field
whose value is absent, in the schema's declared order, with empty
`quality_issues` and `suggestions`; and a required field holding the empty
string is not reported missing. -/
theorem C5_base_validator (fs : FieldSet) :
    validateFields (toPy fs) =
      ⟨(FORM_SCHEMA.filter fun cfg => cfg.required && (fs cfg.name).isNone).map
          (fun cfg => ⟨cfg.name, missingMsg cfg⟩), [], []⟩ ∧
    (validateFields (toPy (fun _ => some ""))).missing_fields = [] := by
  refine ⟨?_, by decide⟩
  simp only [validateFields, missing_foldl, List.nil_append]

/-- Claim C7, confirmed.  A schema field whose current value is present with
length at least 20 keeps its current value for every incoming FieldSet. -/
theorem C7_merge_retains_long (current incoming : FieldSet) (k : String) (s : String)
    (_hk : k ∈ schemaNames) (hc : current k = some s) (hl : 20 ≤ s.length) :
    mergeFields (toPy current) (toPy incoming) k = some (some s) := by
  have hnl : ¬ s.length < 20 := by omega
  simp [mergeFields, toPy, pyGet, pyGetD, pyStr, hc, hnl]

/-- Witness for C7_merge_retains_long: the 42-character title is kept even
though the incoming extraction offers a different present value. -/
theorem C7_merge_retains_long_witness :
    mergeFields (toPy longCurrent) (toPy otherIncoming) "idea_title" =
      some (some "A fully fleshed out thirty-character title") :=
  C7_merge_retains_long longCurrent otherIncoming "idea_title"
    "A fully fleshed out thirty-character title" (by decide) (by decide) (by decide)

/-- Claim C8, confirmed.  Merging a fully-formed FieldSet with itself
changes nothing. -/
theorem C8_merge_idempotent (f : FieldSet) :
    mergeFields (toPy f) (toPy f) = toPy f := by
  funext k
  simp only [mergeFields]
  split <;> rfl

/-- Claim C10, confirmed.  For any current dict (even one missing schema
keys) and a fully-enumerated incoming FieldSet as the extractor produces,
the merge result has an entry for every declared schema field. -/
theorem C10_merge_fully_enumerates (current : PyFields) (incoming : FieldSet) (k : String)
    (hk : k ∈ schemaNames) :
    (mergeFields current (toPy incoming) k).isSome = true := by
  rcases hc : current k with _ | v
  · simp [mergeFields, toPy, hk, hc]
  · simp only [mergeFields]
    split
    · simp [toPy]
    · simp [hc]

/-- The empty session dict. -/
def emptySession : PyFields := fun _ => none

/-- Witness for C10_merge_fully_enumerates: merging a fully-enumerated
extraction into an empty dict yields an entry for the `attachments` field. -/
theorem C10_merge_fully_enumerates_witness :
    (mergeFields emptySession (toPy allThirty) "attachments").isSome = true :=
  C10_merge_fully_enumerates emptySession allThirty "attachments" (by decide)

/-- Claim C6, counterexample.  At iteration 2 with `impact_measures` present
and digit-free but `solution_details` absent, the minimum-length loop raises
`TypeError` before the numeric check runs, so no verdict is returned and the
specific-number issue is not appended even though the claim's condition
holds. -/
theorem C6_counterexample :
    (toPy impactNoDigit) "impact_measures" = some (some "It will help a lot") ∧
    ("It will help a lot".data.any Char.isDigit) = false ∧
    progressiveValidateFields (toPy impactNoDigit) 2 = none := by decide

/-- Claim C6, amended.  Whenever the progressive validator returns a verdict
(does not raise), the specific-number quality issue for `impact_measures` is
in it if and only if the iteration is at least 2 and the field's value is
present with no digit character. -/
theorem C6_digit_issue_iff (extracted : PyFields) (iteration : Nat) (v : Verdict)
    (h : progressiveValidateFields extracted iteration = some v) :
    digitIssue ∈ v.quality_issues ↔
      (2 ≤ iteration ∧ ∃ s, extracted "impact_measures" = some (some s) ∧
        s.data.any Char.isDigit = false) := by
  simp only [progressiveValidateFields, validateFields_quality] at h
  split at h
  · exact absurd h (by simp)
  · rename_i issues1 hq
    have hnd : digitIssue ∉ issues1 := by
      by_cases h1 : 0 < iteration
      · rw [if_pos h1] at hq
        exact minLenFold_digit_notMem extracted FORM_SCHEMA minLen_entry_ne_digit
          [] issues1 hq (by simp)
      · rw [if_neg h1] at hq
        cases Option.some.inj hq
        simp
    by_cases h2 : 1 < iteration
    · rw [if_pos h2] at h
      split at h
      · rename_i himp
        cases Option.some.inj h
        simp only [List.mem_singleton]
        constructor
        · intro hmem; exact absurd hmem hnd
        · rintro ⟨-, s, hs, -⟩; rw [himp] at hs; exact absurd hs (by simp)
      · exact absurd h (by simp)
      · rename_i s himp
        by_cases hd : s.data.any Char.isDigit
        · rw [if_pos hd] at h
          cases Option.some.inj h
          constructor
          · intro hmem; exact absurd hmem hnd
          · rintro ⟨-, s', hs', hd'⟩
            rw [himp] at hs'
            cases Option.some.inj (Option.some.inj hs')
            rw [hd] at hd'
            exact absurd hd' (by simp)
        · rw [if_neg hd] at h
          cases Option.some.inj h
          constructor
          · intro _
            exact ⟨by omega, s, himp, by simpa using hd⟩
          · intro _
            simp
    · rw [if_neg h2] at h
      cases Option.some.inj h
      constructor
      · intro hmem; exact absurd hmem hnd
      · rintro ⟨hit, -⟩; omega

/-- Witness for C6_digit_issue_iff: with every field present and digit-free,
iteration 2 returns a verdict containing the specific-number issue. -/
theorem C6_digit_issue_iff_witness :
    digitIssue ∈ ((progressiveValidateFields (toPy allHelps) 2).getD ⟨[], [], []⟩).quality_issues :=
  (C6_digit_issue_iff (toPy allHelps) 2
      ((progressiveValidateFields (toPy allHelps) 2).getD ⟨[], [], []⟩) (by decide)).mpr
    ⟨by omega, "It helps", rfl, by decide⟩

/-- Claim C9, counterexample.  With `solution_details` absent (a field with a
declared `min_length`), iteration 0 produces a verdict with a missing-field
entry, but iteration 1 raises `TypeError` and produces no verdict at all, so
the entries of iteration 0 are not reproduced at iteration 1: escalation is
not strictly additive as stated. -/
theorem C9_counterexample :
    (progressiveValidateFields (toPy solutionAbsent) 0).isSome = true ∧
    ((progressiveValidateFields (toPy solutionAbsent) 0).getD ⟨[], [], []⟩).missing_fields ≠ [] ∧
    progressiveValidateFields (toPy solutionAbsent) 1 = none := by decide

/-- Claim C9, amended.  At iteration 0 the progressive validator returns
exactly the base validator's verdict, and whenever it returns a verdict at
both iteration N and iteration N+1, every missing-field entry and every
quality-issue entry of the iteration-N verdict also occurs in the
iteration-(N+1) verdict. -/
theorem C9_progressive_monotone (extracted : PyFields) (n : Nat) (v1 v2 : Verdict)
    (h1 : progressiveValidateFields extracted n = some v1)
    (h2 : progressiveValidateFields extracted (n + 1) = some v2) :
    progressiveValidateFields extracted 0 = some (validateFields extracted) ∧
    (∀ e ∈ v1.missing_fields, e ∈ v2.missing_fields) ∧
    (∀ e ∈ v1.quality_issues, e ∈ v2.quality_issues) := by
  refine ⟨rfl, ?_⟩
  simp only [progressiveValidateFields, validateFields_quality] at h1 h2
  rcases n with _ | m
  · -- n = 0: the iteration-0 verdict has empty quality issues.
    simp at h1
    rcases hq : FORM_SCHEMA.foldl (minLenStep extracted) (some []) with _ | issues1 <;>
      rw [hq] at h2 <;> simp at h2
    subst h1
    subst h2
    exact ⟨fun e he => he, by simp⟩
  · -- n = m + 1 >= 1: both iterations run the same minimum-length loop.
    rcases hq : FORM_SCHEMA.foldl (minLenStep extracted) (some []) with _ | issues1 <;>
      rw [hq] at h1 h2
    · exact absurd h1 (by simp)
    · rcases m with _ | k
      · -- n = 1: no numeric check at 1, possibly one extra issue at 2.
        simp at h1 h2
        subst h1
        split at h2
        · simp only [Option.some.injEq] at h2
          subst h2
          exact ⟨fun e he => he, fun e he => he⟩
        · exact absurd h2 (by simp)
        · split at h2 <;> simp only [Option.some.injEq] at h2 <;> subst h2
          · exact ⟨fun e he => he, fun e he => he⟩
          · exact ⟨fun e he => he, fun e he => List.mem_append_left _ he⟩
      · -- n >= 2: the two computations coincide.
        simp at h1 h2
        rw [h1] at h2
        obtain rfl := Option.some.inj h2
        exact ⟨fun e he => he, fun e he => he⟩

/-- Claim C4, counterexample.  The claim quantifies over every external
extraction result and says the extractor returns a mapping (degrading a
parse failure to all-absent instead of raising).  When the external output
parses as a JSON value that is not an object — here an empty JSON array —
`raw_fields.get` raises `AttributeError`, which is not caught (only
`json.JSONDecodeError` is), so no mapping is returned. -/
theorem C4_counterexample : forward (some (JValue.arr [])) = none := rfl

/-- Claim C4, amended.  When the external output cannot be parsed at all the
extractor returns the all-absent FieldSet; when it parses as a JSON object
the result's keys are exactly the schema field names in order, any schema
field missing from the object maps to absent, and any extra key is dropped;
but when it parses as a non-object JSON value the extractor raises instead
of returning a mapping. -/
theorem C4_forward_amended (kvs : List (String × JValue)) (v : JValue) :
    forward none = some allAbsentExtraction ∧
    (∀ p ∈ allAbsentExtraction, p.2 = JValue.null) ∧
    ((forward (some (JValue.obj kvs))).getD []).map Prod.fst = schemaNames ∧
    (∀ cfg ∈ FORM_SCHEMA, jlookup kvs cfg.name = none →
        (cfg.name, JValue.null) ∈ (forward (some (JValue.obj kvs))).getD []) ∧
    (∀ name jv, (name, jv) ∈ (forward (some (JValue.obj kvs))).getD [] →
        name ∈ schemaNames) ∧
    ((∀ l, v ≠ JValue.obj l) → forward (some v) = none) := by
  refine ⟨rfl, ?_, ?_, ?_, ?_, ?_⟩
  · intro p hp
    simp only [allAbsentExtraction, List.mem_map] at hp
    obtain ⟨cfg, -, rfl⟩ := hp
    rfl
  · simp only [forward, Option.getD_some, List.map_map]
    rfl
  · intro cfg hcfg hnone
    simp only [forward, Option.getD_some, List.mem_map]
    exact ⟨cfg, hcfg, by rw [hnone]; rfl⟩
  · intro name jv h
    simp only [forward, Option.getD_some, List.mem_map] at h
    obtain ⟨cfg, hcfg, heq⟩ := h
    have h1 : cfg.name = name := congrArg Prod.fst heq
    subst h1
    exact List.mem_map.mpr ⟨cfg, hcfg, rfl⟩
  · intro hv
    cases v
    case obj l => exact absurd rfl (hv l)
    all_goals rfl

/-- Witness for C4_forward_amended: an object result with only an unknown
key yields an absent `idea_title`, and a JSON number result raises. -/
theorem C4_forward_amended_witness :
    ("idea_title", JValue.null) ∈
      (forward (some (JValue.obj [("junk", JValue.str "x")]))).getD [] ∧
    forward (some (JValue.num 3)) = none := by
  have h := C4_forward_amended [("junk", JValue.str "x")] (JValue.num 3)
  refine ⟨?_, ?_⟩
  · exact h.2.2.2.1 ⟨"idea_title", "A concise, attention-grabbing title for the idea",
      true, none, some 100, none⟩ (by decide) rfl
  · exact h.2.2.2.2.2 (by intro l hl; cases hl)

/-- Witness for C9_progressive_monotone at iteration 1 versus 2 on a
fully-present FieldSet. -/
theorem C9_progressive_monotone_witness :
    progressiveValidateFields (toPy allThirty) 0 = some (validateFields (toPy allThirty)) :=
  (C9_progressive_monotone (toPy allThirty) 1
    ((progressiveValidateFields (toPy allThirty) 1).getD ⟨[], [], []⟩)
    ((progressiveValidateFields (toPy allThirty) 2).getD ⟨[], [], []⟩)
    (by decide) (by decide)).1
